import Mathlib

/-!
Verification of the Mesh peer-to-peer overlay manager (the `PeerManager`
class and its helpers). The TypeScript source is shallowly embedded:

* `Json` models the values `JSON.parse` can produce; a raw inbound message
  is modelled by `Option Json` (`none` when `JSON.parse` throws).
* `Peer` models an outbound `WebSocket` tagged with `peerUrl`; its
  `readyState` follows the WebSocket constants CONNECTING/OPEN/CLOSING/CLOSED.
* `PeerManager` carries the mutable fields the claims are about:
  `peers` (the Peer Set) and `current_node_url`.
* Handlers record their side effects explicitly: the resulting state, the
  list of `addPeer` calls made with a string argument, the envelopes sent on
  the originating connection, and whether the handler threw. A JavaScript
  exception inside a handler (for example `undefined.forEach`, or the
  `WebSocket` constructor rejecting a non-string argument) is modelled by
  `threw := true` together with the state mutated so far, matching the
  semantics of an exception escaping mid-loop.
* The `try`/`catch` wrapping each connection's message callback is modelled
  by `handleRawMessage` being a total function whose `RouteOutcome` records
  which log line the catch/guard clauses would emit; there is no crashing
  outcome because the source catches every exception on the receipt path.
* Timers (`setTimeout(5000)`) are modelled by a labelled transition system
  `TStep` over `NodeState`, which pairs a `PeerManager` with a clock and the
  pending reconnect timers.
-/

/-- Values producible by `JSON.parse`. Object fields are an association
list; `JSON.parse` yields unique keys, and lookup takes the first match. -/
inductive Json where
  | null
  | bool (b : Bool)
  | num (n : Int)
  | str (s : String)
  | arr (elems : List Json)
  | obj (fields : List (String × Json))

/-- WebSocket readyState constants. -/
inductive ReadyState where
  | CONNECTING
  | OPEN
  | CLOSING
  | CLOSED
deriving DecidableEq, Repr

/-- Embeds `interface Peer extends WebSocket`: the socket is reduced to the
observable fields the claims mention, its tag `peerUrl` and its transport
`readyState`. A freshly constructed `new WebSocket(url)` starts CONNECTING. -/
structure Peer where
  peerUrl : String
  readyState : ReadyState
deriving DecidableEq, Repr

/-- Embeds the mutable state of `class PeerManager`: the array `peers`
(the Peer Set, in insertion order) and `current_node_url`. -/
structure PeerManager where
  peers : List Peer
  current_node_url : String
deriving DecidableEq, Repr

/-- Address list of the Peer Set: `this.peers.map(p => p.peerUrl)`. -/
def addrs (st : PeerManager) : List String :=
  st.peers.map Peer.peerUrl

/-- Embeds the constructor's initialisation `private peers: Peer[] = []`
together with `this.current_node_url = current_node_url`. -/
def initManager (self : String) : PeerManager :=
  { peers := [], current_node_url := self }

/-- Embeds `PeerManager.addPeer` (source lines 114-168): a no-op when the
url equals `current_node_url` or some peer already carries it; otherwise a
new CONNECTING socket tagged with the url is pushed onto `peers`. Opening
the transport is the appended entry itself (optimistic insertion); the
`open`/`message`/`close`/`error` callbacks it installs are modelled by the
separate transition functions below. -/
def addPeer (st : PeerManager) (peerUrl : String) : PeerManager :=
  if peerUrl == st.current_node_url || st.peers.any (fun p => p.peerUrl == peerUrl) then
    st
  else
    { st with peers := st.peers ++ [{ peerUrl := peerUrl, readyState := ReadyState.CONNECTING }] }

/-- Embeds the `close` callback's Peer Set mutation (source line 158):
`this.peers = this.peers.filter(p => p.peerUrl !== peerUrl)`. -/
def closePeer (st : PeerManager) (peerUrl : String) : PeerManager :=
  { st with peers := st.peers.filter (fun p => p.peerUrl != peerUrl) }

/-- Models the transport's `open` event for sockets tagged with the url:
only `readyState` changes, addresses are untouched. -/
def markOpen (st : PeerManager) (peerUrl : String) : PeerManager :=
  { st with peers := st.peers.map (fun p =>
      if p.peerUrl == peerUrl then { p with readyState := ReadyState.OPEN } else p) }

/-- First-match lookup in a parsed JSON object, i.e. property access on the
result of `JSON.parse` (whose keys are unique). -/
def lookupField (fields : List (String × Json)) (key : String) : Option Json :=
  match fields with
  | [] => none
  | (k, v) :: rest => if k == key then some v else lookupField rest key

/-- Embeds `isPeerEvent` (source lines 9-16): the value must be a non-null
object (`obj && typeof obj === "object"`; arrays and primitives fail the
later property checks since they carry no `event` string property), its
`event` property must be a string, and a `data` property must exist. -/
def isPeerEvent : Json → Bool
  | Json.obj fields =>
      (match lookupField fields "event" with
       | some (Json.str _) => true
       | _ => false)
      && (lookupField fields "data").isSome
  | _ => false

/-- The `event` field read by the destructuring `const { event, data }`;
meaningful on values passing `isPeerEvent`. -/
def eventOf (j : Json) : String :=
  match j with
  | Json.obj fields =>
      match lookupField fields "event" with
      | some (Json.str s) => s
      | _ => ""
  | _ => ""

/-- The `data` field read by the destructuring `const { event, data }`. -/
def dataOf (j : Json) : Json :=
  match j with
  | Json.obj fields => (lookupField fields "data").getD Json.null
  | _ => Json.null

/-- JavaScript truthiness of a JSON value, as tested by `if (data?.requester)`. -/
def jsTruthy : Json → Bool
  | Json.null => false
  | Json.bool b => b
  | Json.num n => n != 0
  | Json.str s => s != ""
  | Json.arr _ => true
  | Json.obj _ => true

/-- Observable effects of one handler invocation: the resulting manager
state, the `addPeer` calls made with a string argument (in call order), the
envelopes sent back on the originating connection, and whether the handler
threw (the exception is then caught by the message callback's `catch`). -/
structure HandlerOut where
  st : PeerManager
  calls : List String
  sends : List Json
  threw : Bool

/-- A registered event handler, as invoked by the router with the parsed
`data` payload. -/
def Handler := PeerManager → Json → HandlerOut

/-- The address list placed in every KNOWN_PEERS envelope the node sends:
`this.peers.map(p => p.peerUrl).concat(this.current_node_url)`. -/
def replyAddrs (st : PeerManager) : List String :=
  addrs st ++ [st.current_node_url]

/-- The KNOWN_PEERS envelope built from the state at send time, as
serialized by `JSON.stringify` at source lines 79-88 (and 32-41). -/
def knownPeersEnvelope (st : PeerManager) : Json :=
  Json.obj [("event", Json.str "KNOWN_PEERS"),
            ("data", Json.obj [("value", Json.arr ((replyAddrs st).map Json.str))])]

/-- Embeds the loop body of the KNOWN_PEERS handler (source lines 67-69):
`data.value.forEach(url => { if (url !== this.current_node_url) this.addPeer(url); })`.
A non-string element reaches `addPeer` (it always differs from the string
`current_node_url`), where `new WebSocket(url)` rejects it: the loop throws
with the state mutated so far. -/
def knownPeersLoop (st : PeerManager) : List Json → HandlerOut
  | [] => { st := st, calls := [], sends := [], threw := false }
  | Json.str u :: rest =>
      if u == st.current_node_url then
        knownPeersLoop st rest
      else
        let out := knownPeersLoop (addPeer st u) rest
        { out with calls := u :: out.calls }
  | _ :: _ => { st := st, calls := [], sends := [], threw := true }

/-- The property access `data.value`: defined only when `data` is an
object carrying the field (JavaScript yields `undefined` otherwise, or
throws outright when `data` is `null`). -/
def valueField (d : Json) : Option Json :=
  match d with
  | Json.obj fields => lookupField fields "value"
  | _ => none

/-- Embeds the built-in KNOWN_PEERS handler (source lines 66-70). When
`data` is `null` or a primitive, the property access `data.value` yields
`undefined` (or throws on `null`); when `data.value` is missing or not an
array, `.forEach` is not a function: in every such case the handler throws
before touching the Peer Set. -/
def KNOWN_PEERS_handler : Handler := fun st data =>
  match valueField data with
  | some (Json.arr xs) => knownPeersLoop st xs
  | _ => { st := st, calls := [], sends := [], threw := true }

/-- Embeds the optional-chaining access `data?.requester`: `none` models
JavaScript `undefined` (payload not an object, or field absent). -/
def requesterField (d : Json) : Option Json :=
  match d with
  | Json.obj fields => lookupField fields "requester"
  | _ => none

/-- Embeds the built-in REQUEST_KNOWN_PEERS handler (source lines 72-90):
`if (data?.requester) this.addPeer(data.requester)` followed by
`peer.send(JSON.stringify({event: "KNOWN_PEERS", data: {value: ...}}))`
built from the Peer Set after the conditional insertion. A truthy
non-string requester reaches `new WebSocket(requester)`, which rejects it:
the handler throws before the reply is sent. -/
def REQUEST_KNOWN_PEERS_handler : Handler := fun st data =>
  match requesterField data with
  | some v =>
      if jsTruthy v then
        match v with
        | Json.str r =>
            let st1 := addPeer st r
            { st := st1, calls := [r], sends := [knownPeersEnvelope st1], threw := false }
        | _ => { st := st, calls := [], sends := [], threw := true }
      else
        { st := st, calls := [], sends := [knownPeersEnvelope st], threw := false }
  | none => { st := st, calls := [], sends := [knownPeersEnvelope st], threw := false }

/-- The handler registry after the constructor's two `registerEvent` calls
(source lines 66-90); a `Map.get` miss is `none`. -/
def builtinHandlers : String → Option Handler := fun ev =>
  if ev == "KNOWN_PEERS" then some KNOWN_PEERS_handler
  else if ev == "REQUEST_KNOWN_PEERS" then some REQUEST_KNOWN_PEERS_handler
  else none

/-- Which log line the message callback's guard and catch clauses emit for
a given raw message; there is no crashing outcome because the whole
callback body sits inside `try ... catch`. -/
inductive RouteOutcome where
  | parseError
  | invalidEnvelope
  | noHandler
  | handled
  | handlerThrew
deriving DecidableEq, Repr

/-- Result of one run of a connection's message callback. -/
structure RouteResult where
  st : PeerManager
  sends : List Json
  outcome : RouteOutcome

/-- Embeds the message callbacks attached to inbound sockets (source lines
43-63) and to outbound sockets (lines 134-154); the two bodies are
textually identical. The argument `parsed` is the result of `JSON.parse`
on the raw payload, `none` when parsing throws (caught by the `catch`,
logged as an error). An `isPeerEvent` failure or a registry miss discards
the message with a warning; a handler exception is caught by the same
`catch` and logged, and the callback returns normally in every case. -/
def handleRawMessage (handlers : String → Option Handler) (st : PeerManager)
    (parsed : Option Json) : RouteResult :=
  match parsed with
  | none => { st := st, sends := [], outcome := RouteOutcome.parseError }
  | some j =>
      if isPeerEvent j then
        match handlers (eventOf j) with
        | some h =>
            let out := h st (dataOf j)
            { st := out.st, sends := out.sends,
              outcome := if out.threw then RouteOutcome.handlerThrew else RouteOutcome.handled }
        | none => { st := st, sends := [], outcome := RouteOutcome.noHandler }
      else
        { st := st, sends := [], outcome := RouteOutcome.invalidEnvelope }

/-- One send attempt made by `broadcast`: the target peer's address and the
envelope it is sent (every attempt carries the same serialized message). -/
structure SendAttempt where
  target : String
  payload : Json

/-- Embeds `PeerManager.broadcast` (source lines 97-104): the envelope is
built once before the loop, then `peers.forEach` attempts a send exactly on
the peers whose `readyState === WebSocket.OPEN`; all other peers are
skipped silently. The returned list records the send attempts in order. -/
def broadcast (st : PeerManager) (event : String) (data : Json) : List SendAttempt :=
  let message := Json.obj [("event", Json.str event), ("data", data)]
  st.peers.foldl
    (fun acc p =>
      if p.readyState == ReadyState.OPEN then
        acc ++ [{ target := p.peerUrl, payload := message }]
      else acc)
    []

/-- The operations that mutate the Peer Set: explicit `addPeer` calls, the
`close` callback's removal, the transport `open` event, and the two
built-in gossip handlers (with an arbitrary parsed payload). -/
inductive Op where
  | add (url : String)
  | close (url : String)
  | openEv (url : String)
  | gossipKnown (data : Json)
  | gossipRequest (data : Json)

/-- State transition performed by one operation. -/
def applyOp (st : PeerManager) : Op → PeerManager
  | Op.add url => addPeer st url
  | Op.close url => closePeer st url
  | Op.openEv url => markOpen st url
  | Op.gossipKnown d => (KNOWN_PEERS_handler st d).st
  | Op.gossipRequest d => (REQUEST_KNOWN_PEERS_handler st d).st

/-- States reachable from the freshly constructed manager by any sequence
of operations. -/
inductive Reachable (self : String) : PeerManager → Prop where
  | init : Reachable self (initManager self)
  | step (st : PeerManager) (op : Op) :
      Reachable self st → Reachable self (applyOp st op)

/-- The Peer Set invariant: no duplicate addresses, and no entry carrying
the local node's own address. -/
def PeerInv (st : PeerManager) : Prop :=
  (addrs st).Nodup ∧ ∀ p ∈ st.peers, p.peerUrl ≠ st.current_node_url

/-- A node together with a clock and the pending `setTimeout` reconnect
timers, each recorded as (absolute fire time, url to re-add). -/
structure NodeState where
  pm : PeerManager
  now : Nat
  timers : List (Nat × String)
deriving DecidableEq, Repr

/-- Embeds the whole `close` callback (source lines 156-160): the entry is
filtered out of the Peer Set in the same step, and
`setTimeout(() => this.addPeer(peerUrl), 5000)` schedules one reconnect
timer at exactly now + 5000 — unconditionally, with no retry counter. -/
def closeEvent (s : NodeState) (url : String) : NodeState :=
  { s with pm := closePeer s.pm url, timers := s.timers ++ [(s.now + 5000, url)] }

/-- Labels of the timed transition system. -/
inductive TLabel where
  | closeL (url : String)
  | advanceL (d : Nat)
  | fireL (t : Nat) (u : String)
  | addL (url : String)
deriving DecidableEq, Repr

/-- Timed small-step semantics of the reconnect machinery: a transport
close runs `closeEvent`; time advances; a pending timer may fire only once
the clock has reached its fire time, and firing runs `addPeer` on the state
at fire time (so its self/duplicate guards are re-evaluated then); an
explicit `addPeer` call can happen at any time. -/
inductive TStep : NodeState → TLabel → NodeState → Prop where
  | close (s : NodeState) (url : String) :
      TStep s (TLabel.closeL url) (closeEvent s url)
  | advance (s : NodeState) (d : Nat) :
      TStep s (TLabel.advanceL d) { s with now := s.now + d }
  | fire (s : NodeState) (t : Nat) (u : String)
      (hmem : (t, u) ∈ s.timers) (hle : t ≤ s.now) :
      TStep s (TLabel.fireL t u)
        { s with timers := s.timers.erase (t, u), pm := addPeer s.pm u }
  | addCall (s : NodeState) (url : String) :
      TStep s (TLabel.addL url) { s with pm := addPeer s.pm url }

/-- A finite run of the timed system, recording its labels. -/
inductive TTrace : NodeState → List TLabel → NodeState → Prop where
  | nil (s : NodeState) : TTrace s [] s
  | cons (s₁ s₂ s₃ : NodeState) (l : TLabel) (ls : List TLabel) :
      TStep s₁ l s₂ → TTrace s₂ ls s₃ → TTrace s₁ (l :: ls) s₃

/-- Recognises reconnect-timer firings, i.e. the scheduled `addPeer` calls
actually executed in a run. -/
def isFire : TLabel → Bool
  | TLabel.fireL _ _ => true
  | _ => false

/-- The canonical state after n full disconnect/reconnect cycles of a node
that tracks exactly the peer at `url`. -/
def cyc (self url : String) (n : Nat) : NodeState :=
  { pm := { peers := [{ peerUrl := url, readyState := ReadyState.CONNECTING }],
            current_node_url := self },
    now := 5000 * n, timers := [] }

/-! ### Basic lemmas about the Peer Set operations -/

lemma addPeer_current (st : PeerManager) (u : String) :
    (addPeer st u).current_node_url = st.current_node_url := by
  unfold addPeer; split <;> rfl

lemma closePeer_current (st : PeerManager) (u : String) :
    (closePeer st u).current_node_url = st.current_node_url := rfl

lemma markOpen_current (st : PeerManager) (u : String) :
    (markOpen st u).current_node_url = st.current_node_url := rfl

lemma mem_addrs_iff (st : PeerManager) (u : String) :
    u ∈ addrs st ↔ ∃ p ∈ st.peers, p.peerUrl = u := by
  simp [addrs, List.mem_map]

lemma any_peerUrl_eq_true (st : PeerManager) (u : String) :
    (st.peers.any (fun p => p.peerUrl == u)) = true ↔ u ∈ addrs st := by
  rw [mem_addrs_iff, List.any_eq_true]
  simp

lemma addPeer_eq_of_mem (st : PeerManager) (u : String) (h : u ∈ addrs st) :
    addPeer st u = st := by
  have hany : (st.peers.any (fun p => p.peerUrl == u)) = true :=
    (any_peerUrl_eq_true st u).mpr h
  simp [addPeer, hany]

lemma addPeer_self (st : PeerManager) : addPeer st st.current_node_url = st := by
  simp [addPeer]

lemma addPeer_peers_of_new (st : PeerManager) (u : String)
    (h1 : u ≠ st.current_node_url) (h2 : u ∉ addrs st) :
    (addPeer st u).peers
      = st.peers ++ [{ peerUrl := u, readyState := ReadyState.CONNECTING }] := by
  have hany : (st.peers.any (fun p => p.peerUrl == u)) = false := by
    rw [← Bool.not_eq_true, any_peerUrl_eq_true]
    exact h2
  simp [addPeer, h1, hany]

lemma addrs_addPeer_of_new (st : PeerManager) (u : String)
    (h1 : u ≠ st.current_node_url) (h2 : u ∉ addrs st) :
    addrs (addPeer st u) = addrs st ++ [u] := by
  simp [addrs, addPeer_peers_of_new st u h1 h2]

lemma mem_addrs_addPeer (st : PeerManager) (u : String)
    (h1 : u ≠ st.current_node_url) : u ∈ addrs (addPeer st u) := by
  by_cases h2 : u ∈ addrs st
  · rw [addPeer_eq_of_mem st u h2]; exact h2
  · rw [addrs_addPeer_of_new st u h1 h2]; simp

lemma PeerInv_addPeer (st : PeerManager) (u : String) (h : PeerInv st) :
    PeerInv (addPeer st u) := by
  by_cases h1 : u = st.current_node_url
  · rw [h1, addPeer_self]; exact h
  by_cases h2 : u ∈ addrs st
  · rw [addPeer_eq_of_mem st u h2]; exact h
  obtain ⟨hn, hs⟩ := h
  constructor
  · rw [addrs_addPeer_of_new st u h1 h2]
    simp [List.nodup_append, hn, h2]
  · intro p hp
    rw [addPeer_current]
    rw [addPeer_peers_of_new st u h1 h2] at hp
    rcases List.mem_append.mp hp with hp | hp
    · exact hs p hp
    · simp at hp
      rw [hp]
      exact h1

lemma PeerInv_closePeer (st : PeerManager) (u : String) (h : PeerInv st) :
    PeerInv (closePeer st u) := by
  obtain ⟨hn, hs⟩ := h
  constructor
  · have hsub : (closePeer st u).peers.Sublist st.peers := List.filter_sublist _
    exact hn.sublist (hsub.map Peer.peerUrl)
  · intro p hp
    exact hs p (List.mem_of_mem_filter hp)

lemma addrs_markOpen (st : PeerManager) (u : String) :
    addrs (markOpen st u) = addrs st := by
  simp only [addrs, markOpen, List.map_map]
  apply List.map_congr_left
  intro p _
  simp only [Function.comp_apply]
  split <;> rfl

lemma PeerInv_markOpen (st : PeerManager) (u : String) (h : PeerInv st) :
    PeerInv (markOpen st u) := by
  obtain ⟨hn, hs⟩ := h
  constructor
  · rw [addrs_markOpen]; exact hn
  · intro p hp
    simp only [markOpen, List.mem_map] at hp
    obtain ⟨q, hq, hqe⟩ := hp
    have : p.peerUrl = q.peerUrl := by
      rw [← hqe]; split <;> rfl
    rw [markOpen_current, this]
    exact hs q hq



/-! ### Lemmas about the gossip handlers -/

lemma knownPeersLoop_current (xs : List Json) (st : PeerManager) :
    (knownPeersLoop st xs).st.current_node_url = st.current_node_url := by
  induction xs generalizing st with
  | nil => rfl
  | cons x rest ih =>
      cases x with
      | str u =>
          by_cases hc : (u == st.current_node_url) = true
          · simp [knownPeersLoop, hc, ih]
          · simp only [knownPeersLoop, hc, if_neg, Bool.not_eq_true] at *
            simp [hc, ih, addPeer_current]
      | null => rfl
      | bool b => rfl
      | num n => rfl
      | arr es => rfl
      | obj fs => rfl

lemma PeerInv_knownPeersLoop (xs : List Json) (st : PeerManager) (h : PeerInv st) :
    PeerInv (knownPeersLoop st xs).st := by
  induction xs generalizing st with
  | nil => exact h
  | cons x rest ih =>
      cases x with
      | str u =>
          by_cases hc : (u == st.current_node_url) = true
          · simpa [knownPeersLoop, hc] using ih st h
          · simp only [knownPeersLoop, hc, if_neg, Bool.not_eq_true] at *
            simpa [hc] using ih (addPeer st u) (PeerInv_addPeer st u h)
      | null => exact h
      | bool b => exact h
      | num n => exact h
      | arr es => exact h
      | obj fs => exact h

lemma PeerInv_knownPeersHandler (st : PeerManager) (d : Json) (h : PeerInv st) :
    PeerInv (KNOWN_PEERS_handler st d).st := by
  unfold KNOWN_PEERS_handler
  cases hv : valueField d with
  | none => exact h
  | some v =>
      cases v with
      | arr xs => exact PeerInv_knownPeersLoop xs st h
      | null => exact h
      | bool b => exact h
      | num n => exact h
      | str s => exact h
      | obj fs => exact h

lemma PeerInv_requestHandler (st : PeerManager) (d : Json) (h : PeerInv st) :
    PeerInv (REQUEST_KNOWN_PEERS_handler st d).st := by
  unfold REQUEST_KNOWN_PEERS_handler
  cases hv : requesterField d with
  | none => exact h
  | some v =>
      by_cases ht : jsTruthy v = true
      · cases v with
        | str r => simp [ht]; exact PeerInv_addPeer st r h
        | null => exact h
        | bool b => simp [ht]; exact h
        | num n => simp [ht]; exact h
        | arr es => simp [ht]; exact h
        | obj fs => simp [ht]; exact h
      · simp [ht]; exact h

lemma PeerInv_applyOp (st : PeerManager) (op : Op) (h : PeerInv st) :
    PeerInv (applyOp st op) := by
  cases op with
  | add url => exact PeerInv_addPeer st url h
  | close url => exact PeerInv_closePeer st url h
  | openEv url => exact PeerInv_markOpen st url h
  | gossipKnown d => exact PeerInv_knownPeersHandler st d h
  | gossipRequest d => exact PeerInv_requestHandler st d h

/-- C1: in every state reachable from the freshly constructed manager by
any sequence of operations (addPeer calls, transport-close removals, the
transport open event, and the two built-in gossip handlers on arbitrary
payloads), the Peer Set contains no two entries with the same address and
no entry whose address equals the local node's own address. -/
theorem mesh_C1_peer_set_invariant (self : String) (st : PeerManager)
    (h : Reachable self st) : PeerInv st := by
  induction h with
  | init =>
      refine ⟨List.nodup_nil, ?_⟩
      intro p hp
      cases hp
  | step st op _ ih => exact PeerInv_applyOp st op ih

/-- Witness for C1: the invariant holds at a concrete reachable state. -/
theorem mesh_C1_witness :
    PeerInv (applyOp (initManager "ws://node-a") (Op.add "ws://node-b")) :=
  mesh_C1_peer_set_invariant "ws://node-a" _
    (Reachable.step (initManager "ws://node-a") (Op.add "ws://node-b") Reachable.init)

/-! ### C2: the addPeer contract -/

/-- C2: addPeer is a no-op (Peer Set unchanged, hence no socket constructed)
when the address equals the local node's address or already appears in the
Peer Set; otherwise it appends exactly one CONNECTING entry tagged with the
address (optimistic insertion, before the transport confirms open); calling
it twice in sequence leaves exactly one entry for a fresh non-self address
(and, being covered by the first conjunct, addPeer of the node's own
address never inserts an entry). -/
theorem mesh_C2_addPeer_contract (st : PeerManager) (a : String) :
    (a = st.current_node_url ∨ a ∈ addrs st → addPeer st a = st)
    ∧ (a ≠ st.current_node_url → a ∉ addrs st →
        (addPeer st a).peers
          = st.peers ++ [{ peerUrl := a, readyState := ReadyState.CONNECTING }])
    ∧ ((addrs st).Nodup → a ≠ st.current_node_url →
        (addrs (addPeer (addPeer st a) a)).count a = 1)
    ∧ addPeer st st.current_node_url = st := by
  refine ⟨?_, ?_, ?_, addPeer_self st⟩
  · rintro (h | h)
    · rw [h]; exact addPeer_self st
    · exact addPeer_eq_of_mem st a h
  · exact addPeer_peers_of_new st a
  · intro hnd h1
    by_cases h2 : a ∈ addrs st
    · rw [addPeer_eq_of_mem st a h2, addPeer_eq_of_mem st a h2]
      exact List.count_eq_one_of_mem hnd h2
    · have hmem : a ∈ addrs (addPeer st a) := mem_addrs_addPeer st a h1
      rw [addPeer_eq_of_mem (addPeer st a) a hmem,
          addrs_addPeer_of_new st a h1 h2]
      have hnd2 : (addrs st ++ [a]).Nodup := by
        simp [List.nodup_append, hnd, h2]
      exact List.count_eq_one_of_mem hnd2 (by simp)

/-- Witness for C2: each conjunct applied at a concrete manager state. -/
theorem mesh_C2_witness :
    addPeer (initManager "ws://a") "ws://a" = initManager "ws://a"
    ∧ (addPeer (initManager "ws://a") "ws://b").peers
        = [{ peerUrl := "ws://b", readyState := ReadyState.CONNECTING }]
    ∧ (addrs (addPeer (addPeer (initManager "ws://a") "ws://b") "ws://b")).count "ws://b" = 1 := by
  refine ⟨(mesh_C2_addPeer_contract (initManager "ws://a") "ws://a").1 (Or.inl rfl), ?_, ?_⟩
  · have h := (mesh_C2_addPeer_contract (initManager "ws://a") "ws://b").2.1
      (by decide) (by simp [initManager, addrs])
    simpa [initManager] using h
  · exact (mesh_C2_addPeer_contract (initManager "ws://a") "ws://b").2.2.1
      (by simp [initManager, addrs]) (by decide)

/-! ### C3: reconnect timing -/

lemma ttrace_append {s₁ s₂ s₃ : NodeState} {ls₁ ls₂ : List TLabel}
    (h₁ : TTrace s₁ ls₁ s₂) (h₂ : TTrace s₂ ls₂ s₃) :
    TTrace s₁ (ls₁ ++ ls₂) s₃ := by
  induction h₁ with
  | nil s => exact h₂
  | cons a b c l ls hstep _ ih => exact TTrace.cons a b s₃ l _ hstep (ih h₂)

lemma cyc_cycle (self url : String) (h : url ≠ self) (n : Nat) :
    TTrace (cyc self url n)
      [TLabel.closeL url, TLabel.advanceL 5000, TLabel.fireL (5000 * n + 5000) url]
      (cyc self url (n + 1)) := by
  refine TTrace.cons _ _ _ _ _ (TStep.close _ url) ?_
  refine TTrace.cons _ _ _ _ _ (TStep.advance _ 5000) ?_
  refine TTrace.cons _ _ _ _ _
    (TStep.fire _ (5000 * n + 5000) url (by simp [closeEvent, cyc]) (by simp [closeEvent, cyc])) ?_
  have hb : (url == self) = false := by
    simpa using h
  have : ({ pm := addPeer (closePeer (cyc self url n).pm url) url,
            now := (cyc self url n).now + 5000,
            timers := ((cyc self url n).timers
              ++ [((cyc self url n).now + 5000, url)]).erase ((5000 * n + 5000), url) } : NodeState)
      = cyc self url (n + 1) := by
    simp [cyc, closeEvent, closePeer, addPeer, hb, Nat.mul_succ]
  rw [show (5000 : Nat) * n + 5000 = (cyc self url n).now + 5000 from by simp [cyc]] at this ⊢
  exact this ▸ TTrace.nil _

lemma cyc_unbounded (self url : String) (h : url ≠ self) (n : Nat) :
    ∃ tr : List TLabel, TTrace (cyc self url 0) tr (cyc self url n)
      ∧ (tr.filter isFire).length = n := by
  induction n with
  | zero => exact ⟨[], TTrace.nil _, rfl⟩
  | succ k ih =>
      obtain ⟨tr, htr, hcount⟩ := ih
      refine ⟨tr ++ [TLabel.closeL url, TLabel.advanceL 5000, TLabel.fireL (5000 * k + 5000) url],
        ttrace_append htr (cyc_cycle self url h k), ?_⟩
      simp [List.filter_append, hcount, isFire]

/-- C3: when an outbound peer's transport closes, (1) every entry with that
address leaves the Peer Set in the same step, (2) one reconnect timer is
scheduled at exactly now + 5000 ms — unconditionally, so no retry counter
exists, (3) a scheduled `addPeer(url)` can only fire once the clock has
reached its fire time (never sooner), and it then runs `addPeer` on the
state at fire time, and (4) for every n there is a run of the timed system
performing n disconnect/reconnect cycles for the same address — there is no
maximum retry count. -/
theorem mesh_C3_reconnect (s : NodeState) (url : String) :
    (closeEvent s url).pm.peers = s.pm.peers.filter (fun p => p.peerUrl != url)
    ∧ (closeEvent s url).timers = s.timers ++ [(s.now + 5000, url)]
    ∧ (∀ (s₂ : NodeState) (t : Nat) (u : String),
        TStep s (TLabel.fireL t u) s₂ → t ≤ s.now ∧ s₂.pm = addPeer s.pm u)
    ∧ (∀ (self other : String), other ≠ self → ∀ n : Nat,
        ∃ tr : List TLabel, TTrace (cyc self other 0) tr (cyc self other n)
          ∧ (tr.filter isFire).length = n) := by
  refine ⟨rfl, rfl, ?_, fun self other hne n => cyc_unbounded self other hne n⟩
  intro s₂ t u hstep
  cases hstep with
  | fire _ _ hmem hle => exact ⟨hle, rfl⟩

/-- Witness for C3: the close-handler equations at a concrete state, a
concrete timer firing exactly at its scheduled time, and a concrete run
with two reconnect cycles. -/
theorem mesh_C3_witness :
    (closeEvent { pm := initManager "ws://a", now := 0, timers := [] } "ws://b").timers
      = [(5000, "ws://b")]
    ∧ (5000 ≤ 5000
        ∧ ({ pm := { peers := [{ peerUrl := "ws://b", readyState := ReadyState.CONNECTING }],
                      current_node_url := "ws://a" },
             now := 5000, timers := ([(5000, "ws://b")] : List (Nat × String)).erase (5000, "ws://b") } : NodeState).pm
          = addPeer (initManager "ws://a") "ws://b")
    ∧ (∃ tr : List TLabel, TTrace (cyc "ws://a" "ws://b" 0) tr (cyc "ws://a" "ws://b" 2)
        ∧ (tr.filter isFire).length = 2) := by
  refine ⟨?_, ?_, ?_⟩
  · simpa using
      (mesh_C3_reconnect { pm := initManager "ws://a", now := 0, timers := [] } "ws://b").2.1
  · exact (mesh_C3_reconnect
        { pm := initManager "ws://a", now := 5000, timers := [(5000, "ws://b")] } "ws://b").2.2.1
      _ 5000 "ws://b"
      (TStep.fire _ 5000 "ws://b" (by simp) (by decide))
  · exact (mesh_C3_reconnect { pm := initManager "ws://a", now := 0, timers := [] } "ws://b").2.2.2
      "ws://a" "ws://b" (by decide) 2

/-! ### C4, C5, C10: the message receipt path -/

/-- C4: a raw message that fails to parse as JSON, or parses to a value
failing the envelope check (no string `event` field or no `data` field), or
is a valid envelope whose event has no registered handler, invokes no
handler: the callback returns with the Peer Set untouched and nothing sent,
and its outcome is only the corresponding logged warning/error — the
`try`/`catch` structure has no crashing outcome for the connection or the
process. -/
theorem mesh_C4_message_rejection (handlers : String → Option Handler)
    (st : PeerManager) :
    handleRawMessage handlers st none
        = { st := st, sends := [], outcome := RouteOutcome.parseError }
    ∧ (∀ j : Json, isPeerEvent j = false →
        handleRawMessage handlers st (some j)
          = { st := st, sends := [], outcome := RouteOutcome.invalidEnvelope })
    ∧ (∀ j : Json, isPeerEvent j = true → handlers (eventOf j) = none →
        handleRawMessage handlers st (some j)
          = { st := st, sends := [], outcome := RouteOutcome.noHandler }) := by
  refine ⟨rfl, ?_, ?_⟩
  · intro j hj
    simp [handleRawMessage, hj]
  · intro j hj hn
    simp [handleRawMessage, hj, hn]

/-- Witness for C4: unparsable input, the envelope `{"event":1}`, and a
valid envelope with the unregistered event name FOO, against the built-in
registry at a concrete state. -/
theorem mesh_C4_witness :
    handleRawMessage builtinHandlers (initManager "ws://a") none
        = { st := initManager "ws://a", sends := [], outcome := RouteOutcome.parseError }
    ∧ handleRawMessage builtinHandlers (initManager "ws://a")
          (some (Json.obj [("event", Json.num 1)]))
        = { st := initManager "ws://a", sends := [], outcome := RouteOutcome.invalidEnvelope }
    ∧ handleRawMessage builtinHandlers (initManager "ws://a")
          (some (Json.obj [("event", Json.str "FOO"), ("data", Json.obj [])]))
        = { st := initManager "ws://a", sends := [], outcome := RouteOutcome.noHandler } :=
  ⟨(mesh_C4_message_rejection builtinHandlers (initManager "ws://a")).1,
   (mesh_C4_message_rejection builtinHandlers (initManager "ws://a")).2.1
     (Json.obj [("event", Json.num 1)]) rfl,
   (mesh_C4_message_rejection builtinHandlers (initManager "ws://a")).2.2
     (Json.obj [("event", Json.str "FOO"), ("data", Json.obj [])]) rfl rfl⟩

/-- C5: when a dispatched handler throws, the message callback still
returns normally — the exception stops at the router boundary: the result
records exactly the handler's own state and sends plus a logged
handlerThrew outcome, so the connection is not closed, the process does not
crash, and subsequent messages are processed from that state as usual. -/
theorem mesh_C5_handler_error_isolated (handlers : String → Option Handler)
    (st : PeerManager) (j : Json) (h : Handler)
    (hv : isPeerEvent j = true) (hreg : handlers (eventOf j) = some h)
    (ht : (h st (dataOf j)).threw = true) :
    handleRawMessage handlers st (some j)
      = { st := (h st (dataOf j)).st, sends := (h st (dataOf j)).sends,
          outcome := RouteOutcome.handlerThrew } := by
  simp [handleRawMessage, hv, hreg, ht]

/-- Witness for C5: the built-in KNOWN_PEERS handler thrown on a `null`
payload is caught and the callback returns normally. -/
theorem mesh_C5_witness :
    handleRawMessage builtinHandlers (initManager "ws://a")
        (some (Json.obj [("event", Json.str "KNOWN_PEERS"), ("data", Json.null)]))
      = { st := initManager "ws://a", sends := [], outcome := RouteOutcome.handlerThrew } :=
  mesh_C5_handler_error_isolated builtinHandlers (initManager "ws://a")
    (Json.obj [("event", Json.str "KNOWN_PEERS"), ("data", Json.null)])
    KNOWN_PEERS_handler rfl rfl rfl

/-- C10: the syntactically valid envelope whose KNOWN_PEERS payload lacks
the `value` array makes the built-in handler throw
(`data.value.forEach` on `undefined`), the router's catch absorbs it, and
the Peer Set is left unchanged with nothing sent — for every starting
state. -/
theorem mesh_C10_malformed_builtin_payload (st : PeerManager) :
    handleRawMessage builtinHandlers st
        (some (Json.obj [("event", Json.str "KNOWN_PEERS"), ("data", Json.obj [])]))
      = { st := st, sends := [], outcome := RouteOutcome.handlerThrew } := rfl

/-! ### C6: broadcast -/

lemma broadcast_foldl (msg : Json) (l : List Peer) (acc : List SendAttempt) :
    l.foldl
        (fun acc p =>
          if p.readyState == ReadyState.OPEN then
            acc ++ [{ target := p.peerUrl, payload := msg }]
          else acc)
        acc
      = acc ++ (l.filter (fun p => p.readyState == ReadyState.OPEN)).map
          (fun p => { target := p.peerUrl, payload := msg }) := by
  induction l generalizing acc with
  | nil => simp
  | cons p rest ih =>
      simp only [beq_iff_eq] at ih ⊢
      by_cases hp : p.readyState = ReadyState.OPEN
      · simp [hp, ih, List.append_assoc]
      · simp [hp, ih]

/-- C6: broadcast builds the envelope once and attempts exactly one send
per peer whose transport is OPEN at the per-peer check, in Peer Set order;
every peer in any other state (CONNECTING, CLOSING, CLOSED) contributes no
send attempt — nothing is queued or retried. Every attempt carries the one
serialized envelope. -/
theorem mesh_C6_broadcast (st : PeerManager) (event : String) (data : Json) :
    broadcast st event data
        = (st.peers.filter (fun p => p.readyState == ReadyState.OPEN)).map
            (fun p => { target := p.peerUrl,
                        payload := Json.obj [("event", Json.str event), ("data", data)] })
    ∧ (∀ a ∈ broadcast st event data,
        a.payload = Json.obj [("event", Json.str event), ("data", data)])
    ∧ (broadcast st event data).length
        = (st.peers.filter (fun p => p.readyState == ReadyState.OPEN)).length := by
  have he : broadcast st event data
      = (st.peers.filter (fun p => p.readyState == ReadyState.OPEN)).map
          (fun p => { target := p.peerUrl,
                      payload := Json.obj [("event", Json.str event), ("data", data)] }) := by
    unfold broadcast
    simpa using broadcast_foldl (Json.obj [("event", Json.str event), ("data", data)]) st.peers []
  refine ⟨he, ?_, ?_⟩
  · intro a ha
    rw [he] at ha
    obtain ⟨p, _, hpa⟩ := List.mem_map.mp ha
    rw [← hpa]
  · rw [he, List.length_map]

/-- Witness for C6: a state with one OPEN and one CONNECTING peer produces
exactly one send attempt, to the OPEN peer, carrying the envelope. -/
theorem mesh_C6_witness :
    broadcast
        { peers := [{ peerUrl := "ws://b", readyState := ReadyState.OPEN },
                    { peerUrl := "ws://c", readyState := ReadyState.CONNECTING }],
          current_node_url := "ws://a" }
        "PING" Json.null
      = [{ target := "ws://b",
           payload := Json.obj [("event", Json.str "PING"), ("data", Json.null)] }]
    ∧ ({ target := "ws://b",
         payload := Json.obj [("event", Json.str "PING"), ("data", Json.null)] } : SendAttempt).payload
        = Json.obj [("event", Json.str "PING"), ("data", Json.null)] := by
  have h := (mesh_C6_broadcast
      { peers := [{ peerUrl := "ws://b", readyState := ReadyState.OPEN },
                  { peerUrl := "ws://c", readyState := ReadyState.CONNECTING }],
        current_node_url := "ws://a" }
      "PING" Json.null).1
  refine ⟨by simpa using h, ?_⟩
  exact (mesh_C6_broadcast
      { peers := [{ peerUrl := "ws://b", readyState := ReadyState.OPEN },
                  { peerUrl := "ws://c", readyState := ReadyState.CONNECTING }],
        current_node_url := "ws://a" }
      "PING" Json.null).2.1 _ (by rw [h]; exact List.mem_singleton.mpr rfl)

/-! ### C7: the KNOWN_PEERS advertisement handler -/

lemma knownPeersLoop_strs (urls : List String) (st : PeerManager) :
    knownPeersLoop st (urls.map Json.str)
      = { st := (urls.filter (fun u => u != st.current_node_url)).foldl addPeer st,
          calls := urls.filter (fun u => u != st.current_node_url),
          sends := [], threw := false } := by
  induction urls generalizing st with
  | nil => rfl
  | cons u rest ih =>
      by_cases hc : (u == st.current_node_url) = true
      · have hne : (u != st.current_node_url) = false := by
          simp [bne]; simpa using hc
        simp [knownPeersLoop, hc, hne, ih st]
      · have hne : (u != st.current_node_url) = true := by
          simp [bne, hc]
        have hcur := addPeer_current st u
        simp [knownPeersLoop, hc, hne, ih (addPeer st u), hcur]

/-- C7: on a KNOWN_PEERS envelope carrying the address list L, the handler
calls addPeer on exactly the elements of L that differ from the receiver's
own address, in list order (so the receiver's own address is never passed
to addPeer), the resulting Peer Set is the left fold of addPeer over those
calls, the handler completes without throwing, and an already-known address
leaves the Peer Set unchanged when its addPeer runs. -/
theorem mesh_C7_known_peers_advert (st : PeerManager) (urls : List String) :
    (knownPeersLoop st (urls.map Json.str)).calls
        = urls.filter (fun u => u != st.current_node_url)
    ∧ (knownPeersLoop st (urls.map Json.str)).st
        = (urls.filter (fun u => u != st.current_node_url)).foldl addPeer st
    ∧ (knownPeersLoop st (urls.map Json.str)).threw = false
    ∧ KNOWN_PEERS_handler st (Json.obj [("value", Json.arr (urls.map Json.str))])
        = knownPeersLoop st (urls.map Json.str)
    ∧ (∀ u ∈ addrs st, addPeer st u = st) := by
  refine ⟨?_, ?_, ?_, rfl, fun u hu => addPeer_eq_of_mem st u hu⟩
  · rw [knownPeersLoop_strs urls st]
  · rw [knownPeersLoop_strs urls st]
  · rw [knownPeersLoop_strs urls st]

/-- Witness for C7: a concrete advertisement containing the receiver's own
address, a fresh address and an already-known address. -/
theorem mesh_C7_witness :
    (knownPeersLoop (addPeer (initManager "ws://a") "ws://b")
        ([Json.str "ws://a", Json.str "ws://b", Json.str "ws://c"])).calls
      = ["ws://b", "ws://c"]
    ∧ addPeer (addPeer (initManager "ws://a") "ws://b") "ws://b"
        = addPeer (initManager "ws://a") "ws://b" := by
  have h := mesh_C7_known_peers_advert (addPeer (initManager "ws://a") "ws://b")
      ["ws://a", "ws://b", "ws://c"]
  refine ⟨?_, ?_⟩
  · have := h.1
    simpa [initManager, addPeer] using this
  · exact h.2.2.2.2 "ws://b" (by simp [initManager, addPeer, addrs])

/-! ### C8, C9: the REQUEST_KNOWN_PEERS handler -/

/-- C8 counterexample: a payload whose requester field is present and holds
a (string) address — the empty string — on which the handler makes no
addPeer call, although addPeer of that address at that state would have
changed the Peer Set: `if (data?.requester)` tests JS truthiness, not
presence. -/
theorem mesh_C8_counterexample :
    requesterField (Json.obj [("requester", Json.str "")]) = some (Json.str "")
    ∧ (REQUEST_KNOWN_PEERS_handler (initManager "ws://a")
        (Json.obj [("requester", Json.str "")])).calls = []
    ∧ addPeer (initManager "ws://a") "" ≠ initManager "ws://a" := by
  refine ⟨rfl, rfl, ?_⟩
  intro h
  have := congrArg (fun m => m.peers.length) h
  simp [addPeer, initManager] at this

/-- C8 (amended): the handler calls addPeer(requester) iff the requester
field holds a truthy value — for a string requester, iff it is non-empty
(an empty-string requester is present but skipped); whenever the requester
field is absent or holds a string, the handler replies on the originating
connection with a KNOWN_PEERS envelope listing the Peer Set addresses after
the conditional insertion plus the receiver's own address. -/
theorem mesh_C8_request_contract (st : PeerManager) (d : Json) :
    (requesterField d = none →
      REQUEST_KNOWN_PEERS_handler st d
        = { st := st, calls := [], sends := [knownPeersEnvelope st], threw := false })
    ∧ (∀ r : String, requesterField d = some (Json.str r) → r ≠ "" →
        REQUEST_KNOWN_PEERS_handler st d
          = { st := addPeer st r, calls := [r],
              sends := [knownPeersEnvelope (addPeer st r)], threw := false })
    ∧ (requesterField d = some (Json.str "") →
        REQUEST_KNOWN_PEERS_handler st d
          = { st := st, calls := [], sends := [knownPeersEnvelope st], threw := false }) := by
  refine ⟨?_, ?_, ?_⟩
  · intro hn
    simp [REQUEST_KNOWN_PEERS_handler, hn]
  · intro r hr hne
    have hb : (r != "") = true := by simpa using hne
    simp [REQUEST_KNOWN_PEERS_handler, hr, jsTruthy, hb]
  · intro hr
    simp [REQUEST_KNOWN_PEERS_handler, hr, jsTruthy]

/-- Witness for C8: the three amended cases at concrete inputs — absent
requester, requester "ws://b", and the empty-string requester. -/
theorem mesh_C8_witness :
    REQUEST_KNOWN_PEERS_handler (initManager "ws://a") (Json.obj [])
        = { st := initManager "ws://a", calls := [],
            sends := [knownPeersEnvelope (initManager "ws://a")], threw := false }
    ∧ REQUEST_KNOWN_PEERS_handler (initManager "ws://a")
          (Json.obj [("requester", Json.str "ws://b")])
        = { st := addPeer (initManager "ws://a") "ws://b", calls := ["ws://b"],
            sends := [knownPeersEnvelope (addPeer (initManager "ws://a") "ws://b")],
            threw := false }
    ∧ REQUEST_KNOWN_PEERS_handler (initManager "ws://a")
          (Json.obj [("requester", Json.str "")])
        = { st := initManager "ws://a", calls := [],
            sends := [knownPeersEnvelope (initManager "ws://a")], threw := false } :=
  ⟨(mesh_C8_request_contract (initManager "ws://a") (Json.obj [])).1 rfl,
   (mesh_C8_request_contract (initManager "ws://a")
       (Json.obj [("requester", Json.str "ws://b")])).2.1 "ws://b" rfl (by decide),
   (mesh_C8_request_contract (initManager "ws://a")
       (Json.obj [("requester", Json.str "")])).2.2 rfl⟩

/-- C9 counterexample: a REQUEST_KNOWN_PEERS envelope carrying the
requester address "" — the reply is built from an unchanged Peer Set and
its value list does not contain "". -/
theorem mesh_C9_counterexample :
    (REQUEST_KNOWN_PEERS_handler (initManager "ws://a")
        (Json.obj [("requester", Json.str "")])).sends
      = [knownPeersEnvelope (initManager "ws://a")]
    ∧ replyAddrs ((REQUEST_KNOWN_PEERS_handler (initManager "ws://a")
        (Json.obj [("requester", Json.str "")])).st) = ["ws://a"]
    ∧ "" ∉ replyAddrs ((REQUEST_KNOWN_PEERS_handler (initManager "ws://a")
        (Json.obj [("requester", Json.str "")])).st) := by
  refine ⟨rfl, rfl, ?_⟩
  intro h
  simp [REQUEST_KNOWN_PEERS_handler, requesterField, lookupField, jsTruthy,
        replyAddrs, addrs, initManager] at h

/-- C9 (amended): for every non-empty requester string r, the reply to a
REQUEST_KNOWN_PEERS envelope carrying r is the KNOWN_PEERS envelope built
from the post-insertion Peer Set, and its address list contains r: the
optimistic insertion completes synchronously before the reply is built, an
already-known r is already in the Peer Set, and r equal to the receiver's
own address appears as the appended own address. -/
theorem mesh_C9_reply_contains_requester (st : PeerManager) (r : String)
    (hne : r ≠ "") :
    (REQUEST_KNOWN_PEERS_handler st (Json.obj [("requester", Json.str r)])).sends
      = [knownPeersEnvelope
          ((REQUEST_KNOWN_PEERS_handler st (Json.obj [("requester", Json.str r)])).st)]
    ∧ r ∈ replyAddrs
        ((REQUEST_KNOWN_PEERS_handler st (Json.obj [("requester", Json.str r)])).st) := by
  have hres := (mesh_C8_request_contract st (Json.obj [("requester", Json.str r)])).2.1
    r rfl hne
  rw [hres]
  refine ⟨rfl, ?_⟩
  by_cases hself : r = st.current_node_url
  · rw [hself, addPeer_self]
    simp [replyAddrs]
  · have hmem := mem_addrs_addPeer st r hself
    simp [replyAddrs, hmem]

/-- Witness for C9: requester "ws://b" at a fresh node "ws://a": the reply
is built after the insertion and lists "ws://b". -/
theorem mesh_C9_witness :
    (REQUEST_KNOWN_PEERS_handler (initManager "ws://a")
        (Json.obj [("requester", Json.str "ws://b")])).sends
      = [knownPeersEnvelope
          ((REQUEST_KNOWN_PEERS_handler (initManager "ws://a")
              (Json.obj [("requester", Json.str "ws://b")])).st)]
    ∧ "ws://b" ∈ replyAddrs
        ((REQUEST_KNOWN_PEERS_handler (initManager "ws://a")
            (Json.obj [("requester", Json.str "ws://b")])).st) :=
  mesh_C9_reply_contains_requester (initManager "ws://a") "ws://b" (by decide)
